import Mathlib

/-!
Verification of the startup-orchestration and configuration-resolution layer
of the infracost CLI (files `cmd/infracost/main.go` and
`internal/config/config.go`), as a shallow embedding in Lean 4.

Go structs become Lean structures, pointer mutation becomes explicit state
passing, goroutine/channel behaviour becomes an explicit operation trace,
and fallible calls return `Except` or a paired `Option` error.
-/

namespace Infracost

/-! ## Data model (`internal/config/config.go`) -/

/-- Go struct `Project` (config.go). Fields tagged `ignored:"true"` carry no
envconfig binding; the four `envconfig:"INFRACOST_TERRAFORM_*"` fields do. -/
structure Project where
  Path : String := ""
  TerraformPlanFlags : String := ""
  TerraformBinary : String := ""
  TerraformWorkspace : String := ""
  TerraformCloudHost : String := ""
  TerraformCloudToken : String := ""
  UsageFile : String := ""
  TerraformUseState : Bool := false
deriving Repr, DecidableEq

/-- Go struct `Environment` (process-introspection metadata); only the fields
this layer writes are modelled: `HasConfigFile`, `InstallID`,
`IsDefaultPricingAPIEndpoint` and `Flags`. -/
structure Environment where
  HasConfigFile : Bool := false
  InstallID : String := ""
  IsDefaultPricingAPIEndpoint : Bool := false
  Flags : List String := []
deriving Repr, DecidableEq

/-- Go struct `Config` (config.go). The `State` and `Credentials` sub-entities
live outside the visible sources; the part of them this layer reads (the
install identifier copied into `Environment.InstallID`) is modelled where
`LoadFromEnv` uses it. -/
structure Config where
  Environment : Environment := {}
  Version : String := ""
  LogLevel : String := ""
  NoColor : Bool := false
  SkipUpdateCheck : Bool := false
  APIKey : String := ""
  PricingAPIEndpoint : String := ""
  DefaultPricingAPIEndpoint : String := ""
  DashboardAPIEndpoint : String := ""
  Projects : List Project := []
  Format : String := ""
  ShowSkipped : Bool := false
  SyncUsageFile : Bool := false
  Fields : List String := []
deriving Repr, DecidableEq

/-- `DefaultConfig()` from config.go: compiled-in baseline values, with a
single empty `Project` placeholder. -/
def DefaultConfig : Config :=
  { Environment := {}
    LogLevel := ""
    NoColor := false
    DefaultPricingAPIEndpoint := "https://pricing.api.infracost.io"
    PricingAPIEndpoint := "https://pricing.api.infracost.io"
    DashboardAPIEndpoint := "https://dashboard.api.infracost.io"
    Projects := [{}]
    Format := "table"
    Fields := ["monthlyQuantity", "unit", "monthlyCost"] }

/-! ## Process environment and envconfig binding -/

/-- The recognized slice of the process environment: for each environment
variable carried by an `envconfig` tag in config.go, `some v` when the
variable is set to `v` and `none` when unset. -/
structure ProcEnv where
  INFRACOST_LOG_LEVEL : Option String := none
  INFRACOST_NO_COLOR : Option String := none
  INFRACOST_SKIP_UPDATE_CHECK : Option String := none
  INFRACOST_API_KEY : Option String := none
  INFRACOST_PRICING_API_ENDPOINT : Option String := none
  INFRACOST_DEFAULT_PRICING_API_ENDPOINT : Option String := none
  INFRACOST_DASHBOARD_API_ENDPOINT : Option String := none
  INFRACOST_TERRAFORM_BINARY : Option String := none
  INFRACOST_TERRAFORM_WORKSPACE : Option String := none
  INFRACOST_TERRAFORM_CLOUD_HOST : Option String := none
  INFRACOST_TERRAFORM_CLOUD_TOKEN : Option String := none
deriving Repr, DecidableEq

/-- Go's `strconv.ParseBool`, which `envconfig` uses to convert a variable's
text into a `bool` field; `none` is the conversion error. -/
def parseGoBool (s : String) : Option Bool :=
  match s with
  | "1" => some true
  | "t" => some true
  | "T" => some true
  | "TRUE" => some true
  | "true" => some true
  | "True" => some true
  | "0" => some false
  | "f" => some false
  | "F" => some false
  | "FALSE" => some false
  | "false" => some false
  | "False" => some false
  | _ => none

/-- Bind one optional string-valued variable onto a field: set it when the
variable is present, keep the current value otherwise. -/
def bindStr (v : Option String) (cur : String) : String :=
  match v with
  | some s => s
  | none => cur

/-- Bind one optional bool-valued variable onto a field; a value that
`strconv.ParseBool` rejects is a `ConfigEnvError` naming the variable. -/
def bindBool (name : String) (v : Option String) (cur : Bool) : Except String Bool :=
  match v with
  | some s =>
    match parseGoBool s with
    | some b => Except.ok b
    | none => Except.error ("envconfig.Process: assigning " ++ name ++ ": converting value to type bool")
  | none => Except.ok cur

/-- `envconfig.Process("", c)` over the top-level `Config`: every field with
an `envconfig` tag is (re)bound from the process environment, in struct
order (the two bool conversions are the only fallible bindings);
`ignored:"true"` fields are untouched. -/
def processConfig (env : ProcEnv) (c : Config) : Except String Config :=
  match bindBool "INFRACOST_NO_COLOR" env.INFRACOST_NO_COLOR c.NoColor with
  | Except.error e => Except.error e
  | Except.ok noColor =>
    match bindBool "INFRACOST_SKIP_UPDATE_CHECK" env.INFRACOST_SKIP_UPDATE_CHECK c.SkipUpdateCheck with
    | Except.error e => Except.error e
    | Except.ok skip =>
      Except.ok { c with
        LogLevel := bindStr env.INFRACOST_LOG_LEVEL c.LogLevel
        NoColor := noColor
        SkipUpdateCheck := skip
        APIKey := bindStr env.INFRACOST_API_KEY c.APIKey
        PricingAPIEndpoint := bindStr env.INFRACOST_PRICING_API_ENDPOINT c.PricingAPIEndpoint
        DefaultPricingAPIEndpoint := bindStr env.INFRACOST_DEFAULT_PRICING_API_ENDPOINT c.DefaultPricingAPIEndpoint
        DashboardAPIEndpoint := bindStr env.INFRACOST_DASHBOARD_API_ENDPOINT c.DashboardAPIEndpoint }

/-- `envconfig.Process("", project)`: the four tagged `Project` fields, all
string-typed, are rebound from the same process environment. -/
def bindProject (env : ProcEnv) (p : Project) : Project :=
  { p with
    TerraformBinary := bindStr env.INFRACOST_TERRAFORM_BINARY p.TerraformBinary
    TerraformWorkspace := bindStr env.INFRACOST_TERRAFORM_WORKSPACE p.TerraformWorkspace
    TerraformCloudHost := bindStr env.INFRACOST_TERRAFORM_CLOUD_HOST p.TerraformCloudHost
    TerraformCloudToken := bindStr env.INFRACOST_TERRAFORM_CLOUD_TOKEN p.TerraformCloudToken }

/-- `envconfig.Process` on a `Project` as a fallible call, as the source's
loop treats it (string conversions cannot fail, so it always succeeds). -/
def processProject (env : ProcEnv) (p : Project) : Except String Project :=
  Except.ok (bindProject env p)

/-- The `for _, project := range c.Projects` loop of `loadEnvVars`:
process each project in order, returning the first error. -/
def processProjects (env : ProcEnv) : List Project → Except String (List Project)
  | [] => Except.ok []
  | p :: ps => do
    let p2 ← processProject env p
    let ps2 ← processProjects env ps
    Except.ok (p2 :: ps2)

/-- `(c *Config) loadEnvVars()` from config.go: bind the environment onto the
top-level `Config`, then onto every `Project` in the sequence. -/
def loadEnvVars (env : ProcEnv) (c : Config) : Except String Config := do
  let c2 ← processConfig env c
  let ps ← processProjects env c2.Projects
  Except.ok { c2 with Projects := ps }

/-! ## Logger bootstrap (`ConfigureLogger`, over logrus global state) -/

/-- Where the logrus singleton currently writes. -/
inductive LogOutput
  | unset
  | discard
  | stderr
deriving Repr, DecidableEq

/-- Which formatter is installed on the logrus singleton. -/
inductive LogFormatter
  | default
  | textFullTimestamp
deriving Repr, DecidableEq

/-- logrus levels. -/
inductive LogLevelV
  | panicL
  | fatalL
  | errorL
  | warnL
  | infoL
  | debugL
  | traceL
deriving Repr, DecidableEq

/-- The process-wide logrus state mutated by `ConfigureLogger`. -/
structure LoggerState where
  formatter : LogFormatter := .default
  output : LogOutput := .unset
  level : LogLevelV := .infoL
deriving Repr, DecidableEq

/-- ASCII lower-casing of one character (`strings.ToLower` on the ASCII
range, which is all `logrus.ParseLevel` compares against). -/
def lowerChar (c : Char) : Char :=
  match c with
  | 'A' => 'a' | 'B' => 'b' | 'C' => 'c' | 'D' => 'd' | 'E' => 'e' | 'F' => 'f'
  | 'G' => 'g' | 'H' => 'h' | 'I' => 'i' | 'J' => 'j' | 'K' => 'k' | 'L' => 'l'
  | 'M' => 'm' | 'N' => 'n' | 'O' => 'o' | 'P' => 'p' | 'Q' => 'q' | 'R' => 'r'
  | 'S' => 's' | 'T' => 't' | 'U' => 'u' | 'V' => 'v' | 'W' => 'w' | 'X' => 'x'
  | 'Y' => 'y' | 'Z' => 'z'
  | other => other

/-- `strings.ToLower` as `logrus.ParseLevel` uses it. -/
def lowerAscii (s : String) : String :=
  String.mk (s.data.map lowerChar)

/-- `logrus.ParseLevel`: case-insensitive match of the known level names;
anything else is a `LogLevelError`. -/
def parseLevel (s : String) : Option LogLevelV :=
  match lowerAscii s with
  | "panic" => some .panicL
  | "fatal" => some .fatalL
  | "error" => some .errorL
  | "warn" => some .warnL
  | "warning" => some .warnL
  | "info" => some .infoL
  | "debug" => some .debugL
  | "trace" => some .traceL
  | _ => none

/-- `(c *Config) ConfigureLogger()` from config.go, as a transformer of the
logrus global state paired with the returned error. It always installs the
text formatter first; on empty `LogLevel` it points output at discard and
returns nil; otherwise it points output at stderr, then parses the level,
returning the parse error (with output already redirected) or setting the
level. -/
def ConfigureLogger (c : Config) (ls : LoggerState) : LoggerState × Option String :=
  let ls := { ls with formatter := .textFullTimestamp }
  if c.LogLevel = "" then
    ({ ls with output := .discard }, none)
  else
    let ls := { ls with output := .stderr }
    match parseLevel c.LogLevel with
    | none => (ls, some ("not a valid logrus Level: " ++ c.LogLevel))
    | some lv => ({ ls with level := lv }, none)

/-- `(c *Config) IsLogging()` from config.go. -/
def IsLogging (c : Config) : Bool :=
  c.LogLevel != ""

/-! ## State / credentials loaders and `LoadFromEnv` -/

/-- Modelled from the spec: `loadState` (its source is outside `src/`) reads
the persisted install record, creating a fresh identifier on first run, and
the identifier it yields is copied into `Environment.InstallID`. The
identifier the store yields this invocation is a parameter of the model.
Its parse-failure path calls `logrus.Fatal`, exiting the process at once,
and is outside the returned-error flow modelled here. -/
structure StateStore where
  installID : String := ""
deriving Repr, DecidableEq

/-- `(c *Config) LoadFromEnv()` from config.go, threading the logrus global
state: bind env vars (returning their error), configure the logger
(returning its error), then load state and credentials and copy the install
identifier into `Environment.InstallID`. The pair is the mutated
`(Config, LoggerState)`; the `Option String` is the returned error. -/
def LoadFromEnv (env : ProcEnv) (st : StateStore) (c : Config) (ls : LoggerState) :
    (Config × LoggerState) × Option String :=
  match loadEnvVars env c with
  | Except.error e => ((c, ls), some e)
  | Except.ok c2 =>
    let (ls2, lerr) := ConfigureLogger c2 ls
    match lerr with
    | some e => ((c2, ls2), some e)
    | none =>
      let c3 := { c2 with Environment := { c2.Environment with InstallID := st.installID } }
      ((c3, ls2), none)

/-- The parsed content of a config file: `LoadConfigFile` (outside `src/`)
parses the document into a sequence of `Project` entries. -/
structure ConfigFile where
  Projects : List Project := []
deriving Repr, DecidableEq

/-- `(c *Config) LoadFromConfigFile(path)` from config.go, with the result of
the `LoadConfigFile(path)` parse passed as an `Except` (a `ConfigFileError`
message, or the parsed file): on parse failure return the error; otherwise
set `Environment.HasConfigFile`, replace the project sequence wholesale with
the file's projects, and reload the environment on top. -/
def LoadFromConfigFile (parsed : Except String ConfigFile) (env : ProcEnv)
    (st : StateStore) (c : Config) (ls : LoggerState) :
    (Config × LoggerState) × Option String :=
  match parsed with
  | Except.error e => ((c, ls), some e)
  | Except.ok f =>
    let c2 := { c with
      Environment := { c.Environment with HasConfigFile := true }
      Projects := f.Projects }
    LoadFromEnv env st c2 ls

/-! ## Display-formatting stripping and the error/telemetry model -/

/-- Modelled from the spec: `ui.StripColor` (its source is outside `src/`)
removes terminal display-formatting escape codes from a message, leaving the
plain text. Modelled as removal of ANSI `ESC … m` colour sequences; the flag
is true while inside a sequence (skipping up to its terminating `m`). -/
def stripColorChars : Bool → List Char → List Char
  | _, [] => []
  | true, ch :: rest =>
    if ch = 'm' then stripColorChars false rest else stripColorChars true rest
  | false, ch :: rest =>
    if ch = '\x1b' then stripColorChars true rest else ch :: stripColorChars false rest

/-- `ui.StripColor` on strings. -/
def stripColor (s : String) : String :=
  String.mk (stripColorChars false s.data)

/-- A Go `error` value as the orchestrator sees it: a plain error with a
message, a typed labeled event error (`events.Error`, modelled from the
spec: an error variant carrying a short machine-readable label besides its
human-readable message), or a wrapping error whose chain `errors.As`
unwraps. -/
inductive AppError
  | basic (msg : String)
  | eventsErr (label : String) (msg : String)
  | wrap (context : String) (inner : AppError)
deriving Repr, DecidableEq

/-- `err.Error()`: the full human-readable message of the chain. -/
def AppError.message : AppError → String
  | .basic m => m
  | .eventsErr _ m => m
  | .wrap ctx inner => ctx ++ ": " ++ inner.message

/-- `errors.As(err, &eventsError)`: walk the unwrap chain looking for a
labeled event error, yielding its label. -/
def AppError.findEventsLabel : AppError → Option String
  | .basic _ => none
  | .eventsErr l _ => some l
  | .wrap _ inner => inner.findEventsLabel

/-- The message `handleAppErr` (main.go) sends to `events.SendReport`: the
display-stripped full message, replaced by the display-stripped label when
the chain holds a labeled event error. -/
def reportMessage (e : AppError) : String :=
  let msg := stripColor e.message
  match e.findEventsLabel with
  | some l => stripColor l
  | none => msg

/-! ## Update checker (`startUpdateCheck`, main.go) -/

/-- `update.Info`: the ephemeral result of the background update check. -/
structure UpdateInfo where
  LatestVersion : String := ""
  Cmd : String := ""
deriving Repr, DecidableEq

/-- Modelled from the spec: `update.CheckForUpdate` (outside `src/`) either
succeeds with an optional `UpdateInfo` (`none` when already up to date) or
fails; on failure it yields no info (the failure is treated as "no update
available"). -/
abbrev CheckResult : Type := Except String (Option UpdateInfo)

/-- One observable action of the checker goroutine. -/
inductive ChanOp
  | debugLog (msg : String)
  | send (v : Option UpdateInfo)
  | closeChan
deriving Repr, DecidableEq

/-- The body of the goroutine started by `startUpdateCheck` (main.go), as the
trace of its actions: call `CheckForUpdate`; if it errored, log the error at
debug level; then send the (possibly null) result on the handoff channel and
close the channel. -/
def startUpdateCheckOps (res : CheckResult) : List ChanOp :=
  match res with
  | Except.ok info => [ChanOp.send info, ChanOp.closeChan]
  | Except.error e =>
    [ChanOp.debugLog ("error checking for update: " ++ e),
     ChanOp.send none, ChanOp.closeChan]

/-- The single value the checker sends, hence the value the shutdown drain
receives (exactly one send precedes the close). -/
def sentUpdateInfo (res : CheckResult) : Option UpdateInfo :=
  match res with
  | Except.ok info => info
  | Except.error _ => none

/-! ## Orchestration (`main`, main.go) -/

/-- Observable events of one process invocation, in order. `commandExecuted`
marks `rootCmd.Execute()` being invoked (command dispatch was reached);
`commandOutput` stands for whatever the command body wrote;
`errReported` / `panicReported` are the `events.SendReport` calls of
`handleAppErr` / `handleUnexpectedErr` with their message (for a panic the
real report appends the stack trace, runtime introspection outside this
model); `drained` is the single receive from the handoff channel in
`handleUpdateMessage`; `noticePrinted` is the upgrade notice. -/
inductive Ev
  | updateCheckStarted
  | commandExecuted
  | commandOutput
  | printedError (msg : String)
  | errReported (msg : String)
  | printedUnexpected (p : String)
  | panicReported (p : String)
  | drained (v : Option UpdateInfo)
  | noticePrinted (latest : String)
deriving Repr, DecidableEq

/-- `handleAppErr` (main.go): print the error when its message is non-empty,
then send the telemetry report with `reportMessage`. -/
def handleAppErrEvs (e : AppError) : List Ev :=
  (if e.message = "" then [] else [Ev.printedError e.message]) ++
  [Ev.errReported (reportMessage e)]

/-- `handleUnexpectedErr` (main.go): print the unexpected error with its
stack trace, then send the telemetry report. -/
def handleUnexpectedErrEvs (p : String) : List Ev :=
  [Ev.printedUnexpected p, Ev.panicReported p]

/-- `handleUpdateMessage` (main.go): block on the handoff channel for its one
value, and print the upgrade notice exactly when that value is non-null. -/
def handleUpdateMessageEvs (v : Option UpdateInfo) : List Ev :=
  Ev.drained v ::
    (match v with
     | some info => [Ev.noticePrinted info.LatestVersion]
     | none => [])

/-- How `rootCmd.Execute()` turns out: returns nil, returns an error, or a
panic escapes the command body. -/
inductive ExecOutcome
  | ok
  | err (e : AppError)
  | panics (p : String)
deriving Repr, DecidableEq

/-- The deferred function of `main` (main.go): handle `appErr` if set, then
`recover` and handle a panic if one escaped, then always drain the update
handoff channel, and finally choose the exit code: 1 when an error or panic
occurred, 0 otherwise (falling off `main`). -/
def mainDeferredEvs (appErr : Option AppError) (panicVal : Option String)
    (drainV : Option UpdateInfo) : List Ev :=
  (match appErr with | some e => handleAppErrEvs e | none => []) ++
  (match panicVal with | some p => handleUnexpectedErrEvs p | none => []) ++
  handleUpdateMessageEvs drainV

/-- The body of `main` after `appErr = cfg.LoadFromEnv()` (main.go), given
the startup error, the outcome of `rootCmd.Execute()` and the checker's
result: the update check is started, `Execute` runs unconditionally and its
result overwrites `appErr` (on a panic the assignment never happens, so
`appErr` keeps the startup error), and the deferred function runs last.
Yields the process exit code and the event trace. -/
def mainCore (startupErr : Option String) (exec : ExecOutcome) (res : CheckResult) :
    Nat × List Ev :=
  let appErr0 : Option AppError := startupErr.map AppError.basic
  let drainV := sentUpdateInfo res
  let body :
      Option AppError × Option String × List Ev :=
    match exec with
    | .ok => (none, none, [Ev.commandExecuted, Ev.commandOutput])
    | .err e => (some e, none, [Ev.commandExecuted, Ev.commandOutput])
    | .panics p => (appErr0, some p, [Ev.commandExecuted])
  let appErr := body.1
  let panicVal := body.2.1
  let exitCode := if appErr.isSome || panicVal.isSome then 1 else 0
  (exitCode, Ev.updateCheckStarted :: body.2.2 ++ mainDeferredEvs appErr panicVal drainV)

/-- `main` (main.go): build the default config, run `LoadFromEnv`, then the
rest of the body via `mainCore`. -/
def mainRun (env : ProcEnv) (st : StateStore) (exec : ExecOutcome) (res : CheckResult) :
    Nat × List Ev :=
  mainCore (LoadFromEnv env st DefaultConfig {}).2 exec res

/-! ## Per-command flag merge (`loadGlobalFlags`, main.go) -/

/-- The global flags of one invocation: `some v` when the user explicitly set
the flag (pflag `Changed`), `none` otherwise. -/
structure FlagSet where
  noColor : Option Bool := none
  logLevel : Option String := none
  pricingAPIEndpoint : Option String := none
deriving Repr, DecidableEq

/-- The `color.NoColor` package-level global written by `loadGlobalFlags`. -/
structure ColorState where
  NoColor : Bool := false
deriving Repr, DecidableEq

/-- `cmd.Flags().Visit` over the three global flags: the names of the
explicitly set flags, in pflag's lexicographical visit order. -/
def visitedFlagNames (fl : FlagSet) : List String :=
  (if fl.logLevel.isSome then ["log-level"] else []) ++
  (if fl.noColor.isSome then ["no-color"] else []) ++
  (if fl.pricingAPIEndpoint.isSome then ["pricing-api-endpoint"] else [])

/-- The tail of `loadGlobalFlags` (main.go), reached only when no error was
returned: apply the `pricing-api-endpoint` flag if explicitly set, then
derive `Environment.IsDefaultPricingAPIEndpoint` and record the visited
flag names into `Environment.Flags`. -/
def finishGlobalFlags (fl : FlagSet) (c : Config) (ls : LoggerState) (col : ColorState) :
    Config × LoggerState × ColorState :=
  let c2 := match fl.pricingAPIEndpoint with
    | some v => { c with PricingAPIEndpoint := v }
    | none => c
  ({ c2 with Environment := { c2.Environment with
      IsDefaultPricingAPIEndpoint := c2.PricingAPIEndpoint = c2.DefaultPricingAPIEndpoint
      Flags := visitedFlagNames fl } }, ls, col)

/-- `loadGlobalFlags` (main.go), threading the config, logrus state and
`color.NoColor` global: each of `NoColor`, `LogLevel`, `PricingAPIEndpoint`
is overwritten only when its flag was explicitly set; a changed log level
reconfigures the logger, and on a logger error the function returns that
error at once (the mutations so far kept, the later steps skipped). -/
def loadGlobalFlags (fl : FlagSet) (c : Config) (ls : LoggerState) (col : ColorState) :
    (Config × LoggerState × ColorState) × Option String :=
  let c1 := match fl.noColor with
    | some b => { c with NoColor := b }
    | none => c
  let col1 := { col with NoColor := c1.NoColor }
  match fl.logLevel with
  | some v =>
    let c2 := { c1 with LogLevel := v }
    match ConfigureLogger c2 ls with
    | (ls2, some e) => ((c2, ls2, col1), some e)
    | (ls2, none) => (finishGlobalFlags fl c2 ls2 col1, none)
  | none => (finishGlobalFlags fl c1 ls col1, none)

/-! ## Event-kind predicates over traces -/

/-- Is this event the drain of the handoff channel? -/
def Ev.isDrain : Ev → Bool
  | .drained _ => true
  | _ => false

/-- Is this event an `events.SendReport` call (error or panic report)? -/
def Ev.isReport : Ev → Bool
  | .errReported _ => true
  | .panicReported _ => true
  | _ => false

/-- Is this event the upgrade notice being printed? -/
def Ev.isNotice : Ev → Bool
  | .noticePrinted _ => true
  | _ => false

/-- Is this event the command's own output? -/
def Ev.isOutput : Ev → Bool
  | .commandOutput => true
  | _ => false

/-- Is this channel operation a send? -/
def ChanOp.isSend : ChanOp → Bool
  | .send _ => true
  | _ => false

/-- Is this channel operation a debug-level log line? -/
def ChanOp.isDebug : ChanOp → Bool
  | .debugLog _ => true
  | _ => false

/-! ## Concrete inputs used by claim and witness theorems -/

/-- The C1 failing input: the recognized variable `INFRACOST_LOG_LEVEL` set
to the unrecognized level name `bogus`. -/
def bogusLogLevelEnv : ProcEnv := { INFRACOST_LOG_LEVEL := some "bogus" }

/-- The concrete config file for the C5 witness: two projects, one with a
file-supplied terraform binary that the environment overrides. -/
def c5File : ConfigFile :=
  { Projects := [{ Path := "proj1", TerraformBinary := "filebin" }, { Path := "proj2" }] }

/-- The concrete environment for the C5 witness. -/
def c5Env : ProcEnv :=
  { INFRACOST_LOG_LEVEL := some "debug", INFRACOST_TERRAFORM_BINARY := some "envbin" }

/-- The concrete config for the C6 witness: two projects. -/
def c6Cfg : Config := { DefaultConfig with Projects := [{}, { Path := "second" }] }

/-- The concrete environment for the C6 witness. -/
def c6Env : ProcEnv := { INFRACOST_TERRAFORM_BINARY := some "tbin" }

/-- The all-set flag set for the C8 witness. -/
def c8FlagsAll : FlagSet :=
  { noColor := some true, logLevel := some "info",
    pricingAPIEndpoint := some "https://pricing.example" }

/-! ## Helper lemmas on trace pieces -/

theorem handleUpdateMessageEvs_countP_drain (v : Option UpdateInfo) :
    (handleUpdateMessageEvs v).countP (fun x => x.isDrain) = 1 := by
  cases v <;> simp [handleUpdateMessageEvs, Ev.isDrain, List.countP_cons]

theorem handleUpdateMessageEvs_countP_report (v : Option UpdateInfo) :
    (handleUpdateMessageEvs v).countP (fun x => x.isReport) = 0 := by
  cases v <;> simp [handleUpdateMessageEvs, Ev.isReport, List.countP_cons]

theorem handleUpdateMessageEvs_countP_output (v : Option UpdateInfo) :
    (handleUpdateMessageEvs v).countP (fun x => x.isOutput) = 0 := by
  cases v <;> simp [handleUpdateMessageEvs, Ev.isOutput, List.countP_cons]

theorem handleUpdateMessageEvs_countP_notice (v : Option UpdateInfo) :
    (handleUpdateMessageEvs v).countP (fun x => x.isNotice) =
      (if v.isSome then 1 else 0) := by
  cases v <;> simp [handleUpdateMessageEvs, Ev.isNotice, List.countP_cons]

theorem handleAppErrEvs_countP_drain (e : AppError) :
    (handleAppErrEvs e).countP (fun x => x.isDrain) = 0 := by
  unfold handleAppErrEvs
  by_cases h : e.message = "" <;>
    simp [h, Ev.isDrain, List.countP_cons, List.countP_append]

theorem handleAppErrEvs_countP_notice (e : AppError) :
    (handleAppErrEvs e).countP (fun x => x.isNotice) = 0 := by
  unfold handleAppErrEvs
  by_cases h : e.message = "" <;>
    simp [h, Ev.isNotice, List.countP_cons, List.countP_append]

theorem handleAppErrEvs_countP_report (e : AppError) :
    (handleAppErrEvs e).countP (fun x => x.isReport) = 1 := by
  unfold handleAppErrEvs
  by_cases h : e.message = "" <;>
    simp [h, Ev.isReport, List.countP_cons, List.countP_append]

theorem handleUnexpectedErrEvs_countP_drain (p : String) :
    (handleUnexpectedErrEvs p).countP (fun x => x.isDrain) = 0 := by
  simp [handleUnexpectedErrEvs, Ev.isDrain, List.countP_cons]

theorem handleUnexpectedErrEvs_countP_notice (p : String) :
    (handleUnexpectedErrEvs p).countP (fun x => x.isNotice) = 0 := by
  simp [handleUnexpectedErrEvs, Ev.isNotice, List.countP_cons]

/-! ## Claim theorems -/

/-- C1: with `INFRACOST_LOG_LEVEL=bogus`, `LoadFromEnv` does return a
`LogLevelError`-class error at startup, but `main` does not stop: command
dispatch still runs, and when the command succeeds its nil result overwrites
`appErr`, so the process exits 0 and never reports the startup error —
contradicting the claim that startup resolution failure exits non-zero
before any subcommand executes with the startup error reported. -/
theorem claim_c1 :
    (LoadFromEnv bogusLogLevelEnv {} DefaultConfig {}).2 =
      some "not a valid logrus Level: bogus" ∧
    (mainRun bogusLogLevelEnv {} ExecOutcome.ok (Except.ok none)).1 = 0 ∧
    Ev.commandExecuted ∈ (mainRun bogusLogLevelEnv {} ExecOutcome.ok (Except.ok none)).2 ∧
    (mainRun bogusLogLevelEnv {} ExecOutcome.ok (Except.ok none)).2.countP
      (fun x => x.isReport) = 0 := by
  decide

/-- C2: the process exits 1 exactly when `rootCmd.Execute()` returned an
error or a panic escaped it, and a succeeding command with no panic exits 0
with no `events.SendReport` call in the trace. -/
theorem claim_c2 (env : ProcEnv) (st : StateStore) (exec : ExecOutcome) (res : CheckResult) :
    ((mainRun env st exec res).1 = 1 ↔
      (∃ e, exec = ExecOutcome.err e) ∨ (∃ p, exec = ExecOutcome.panics p)) ∧
    (mainRun env st ExecOutcome.ok res).1 = 0 ∧
    (mainRun env st ExecOutcome.ok res).2.countP (fun x => x.isReport) = 0 := by
  refine ⟨?_, ?_, ?_⟩
  · cases exec with
    | ok => simp [mainRun, mainCore]
    | err e => simp [mainRun, mainCore]
    | panics p => simp [mainRun, mainCore]
  · simp [mainRun, mainCore]
  · show List.countP _ (Ev.updateCheckStarted :: Ev.commandExecuted :: Ev.commandOutput ::
      handleUpdateMessageEvs (sentUpdateInfo res)) = 0
    simp only [List.countP_cons, handleUpdateMessageEvs_countP_report]
    simp [Ev.isReport]

/-- C3: on every termination path the trace ends with the
`handleUpdateMessage` block: the handoff channel is drained exactly once,
the drain comes after every report and all command output (the prefix holds
no drain or notice, the suffix holds no report or output), and the upgrade
notice is printed exactly when the drained value is non-null. -/
theorem claim_c3 (env : ProcEnv) (st : StateStore) (exec : ExecOutcome) (res : CheckResult) :
    ∃ pre,
      (mainRun env st exec res).2 = pre ++ handleUpdateMessageEvs (sentUpdateInfo res) ∧
      pre.countP (fun x => x.isDrain) = 0 ∧
      pre.countP (fun x => x.isNotice) = 0 ∧
      (mainRun env st exec res).2.countP (fun x => x.isDrain) = 1 ∧
      (handleUpdateMessageEvs (sentUpdateInfo res)).countP (fun x => x.isReport) = 0 ∧
      (handleUpdateMessageEvs (sentUpdateInfo res)).countP (fun x => x.isOutput) = 0 ∧
      (mainRun env st exec res).2.countP (fun x => x.isNotice) =
        (if (sentUpdateInfo res).isSome then 1 else 0) := by
  have key : ∃ pre,
      (mainRun env st exec res).2 = pre ++ handleUpdateMessageEvs (sentUpdateInfo res) ∧
      pre.countP (fun x => x.isDrain) = 0 ∧
      pre.countP (fun x => x.isNotice) = 0 := by
    cases exec with
    | ok =>
      refine ⟨[Ev.updateCheckStarted, Ev.commandExecuted, Ev.commandOutput], ?_, ?_, ?_⟩
      · simp [mainRun, mainCore, mainDeferredEvs]
      · decide
      · decide
    | err e =>
      refine ⟨Ev.updateCheckStarted :: Ev.commandExecuted :: Ev.commandOutput ::
        handleAppErrEvs e, ?_, ?_, ?_⟩
      · simp [mainRun, mainCore, mainDeferredEvs]
      · simp only [List.countP_cons, handleAppErrEvs_countP_drain]
        simp [Ev.isDrain]
      · simp only [List.countP_cons, handleAppErrEvs_countP_notice]
        simp [Ev.isNotice]
    | panics p =>
      cases hs : (LoadFromEnv env st DefaultConfig {}).2 with
      | none =>
        refine ⟨Ev.updateCheckStarted :: Ev.commandExecuted ::
          handleUnexpectedErrEvs p, ?_, ?_, ?_⟩
        · simp [mainRun, mainCore, mainDeferredEvs, hs]
        · simp only [List.countP_cons, handleUnexpectedErrEvs_countP_drain]
          simp [Ev.isDrain]
        · simp only [List.countP_cons, handleUnexpectedErrEvs_countP_notice]
          simp [Ev.isNotice]
      | some m =>
        refine ⟨Ev.updateCheckStarted :: Ev.commandExecuted ::
          (handleAppErrEvs (AppError.basic m) ++ handleUnexpectedErrEvs p), ?_, ?_, ?_⟩
        · simp [mainRun, mainCore, mainDeferredEvs, hs]
        · simp only [List.countP_cons, List.countP_append,
            handleAppErrEvs_countP_drain, handleUnexpectedErrEvs_countP_drain]
          simp [Ev.isDrain]
        · simp only [List.countP_cons, List.countP_append,
            handleAppErrEvs_countP_notice, handleUnexpectedErrEvs_countP_notice]
          simp [Ev.isNotice]
  obtain ⟨pre, hsplit, hd, hn⟩ := key
  refine ⟨pre, hsplit, hd, hn, ?_,
    handleUpdateMessageEvs_countP_report _, handleUpdateMessageEvs_countP_output _, ?_⟩
  · rw [hsplit, List.countP_append, hd, handleUpdateMessageEvs_countP_drain]
  · rw [hsplit, List.countP_append, hn, handleUpdateMessageEvs_countP_notice, Nat.zero_add]

/-- C4: the checker goroutine always performs exactly one send, of the
check's value (null on failure), followed by closing the channel, with the
failure logged at debug level only (nothing logged on success), and the
checker's result never changes the process exit code. -/
theorem claim_c4 (res res2 : CheckResult) (msg : String) (info : Option UpdateInfo)
    (env : ProcEnv) (st : StateStore) (exec : ExecOutcome) :
    (∃ pre, startUpdateCheckOps res =
        pre ++ [ChanOp.send (sentUpdateInfo res), ChanOp.closeChan] ∧
      pre.countP (fun op => op.isSend) = 0 ∧
      pre.all (fun op => op.isDebug)) ∧
    sentUpdateInfo (Except.error msg) = none ∧
    startUpdateCheckOps (Except.error msg) =
      [ChanOp.debugLog ("error checking for update: " ++ msg),
       ChanOp.send none, ChanOp.closeChan] ∧
    (startUpdateCheckOps (Except.ok info)).countP (fun op => op.isDebug) = 0 ∧
    (mainRun env st exec res).1 = (mainRun env st exec res2).1 := by
  refine ⟨?_, rfl, rfl, ?_, ?_⟩
  · cases res with
    | ok i =>
      exact ⟨[], by simp [startUpdateCheckOps, sentUpdateInfo], by simp, by simp⟩
    | error e =>
      refine ⟨[ChanOp.debugLog ("error checking for update: " ++ e)], ?_, ?_, ?_⟩
      · simp [startUpdateCheckOps, sentUpdateInfo]
      · simp [List.countP_cons, ChanOp.isSend]
      · simp [ChanOp.isDebug]
  · simp [startUpdateCheckOps, List.countP_cons, ChanOp.isDebug]
  · cases exec <;> simp [mainRun, mainCore]

/-! ### Supporting lemmas for the config-resolution claims -/

theorem bindBool_some (name v : String) (cur b : Bool)
    (h : bindBool name (some v) cur = Except.ok b) : parseGoBool v = some b := by
  simp only [bindBool] at h
  cases hp : parseGoBool v with
  | none => rw [hp] at h; cases h
  | some b2 => rw [hp] at h; cases h; rfl

theorem processProjects_eq (env : ProcEnv) (ps : List Project) :
    processProjects env ps = Except.ok (ps.map (bindProject env)) := by
  induction ps with
  | nil => rfl
  | cons p ps ih => simp [processProjects, processProject, ih, Except.bind, bind]

theorem loadEnvVars_eq (env : ProcEnv) (c : Config) :
    loadEnvVars env c = (processConfig env c).map
      (fun c1 => { c1 with Projects := c1.Projects.map (bindProject env) }) := by
  unfold loadEnvVars
  cases h : processConfig env c with
  | error e => simp [h, Except.map, Except.bind, bind]
  | ok c1 => simp [h, processProjects_eq, Except.map, Except.bind, bind]

theorem processConfig_ok (env : ProcEnv) (c c1 : Config)
    (h : processConfig env c = Except.ok c1) :
    c1.LogLevel = bindStr env.INFRACOST_LOG_LEVEL c.LogLevel ∧
    (∀ v, env.INFRACOST_NO_COLOR = some v → parseGoBool v = some c1.NoColor) ∧
    (∀ v, env.INFRACOST_SKIP_UPDATE_CHECK = some v → parseGoBool v = some c1.SkipUpdateCheck) ∧
    c1.APIKey = bindStr env.INFRACOST_API_KEY c.APIKey ∧
    c1.PricingAPIEndpoint = bindStr env.INFRACOST_PRICING_API_ENDPOINT c.PricingAPIEndpoint ∧
    c1.DashboardAPIEndpoint = bindStr env.INFRACOST_DASHBOARD_API_ENDPOINT c.DashboardAPIEndpoint ∧
    c1.Projects = c.Projects ∧
    c1.Environment = c.Environment := by
  unfold processConfig at h
  cases h1 : bindBool "INFRACOST_NO_COLOR" env.INFRACOST_NO_COLOR c.NoColor with
  | error e => rw [h1] at h; cases h
  | ok b1 =>
    rw [h1] at h
    cases h2 : bindBool "INFRACOST_SKIP_UPDATE_CHECK" env.INFRACOST_SKIP_UPDATE_CHECK c.SkipUpdateCheck with
    | error e => rw [h2] at h; cases h
    | ok b2 =>
      rw [h2] at h
      cases h
      refine ⟨rfl, ?_, ?_, rfl, rfl, rfl, rfl, rfl⟩
      · intro v hv
        rw [hv] at h1
        exact bindBool_some _ _ _ _ h1
      · intro v hv
        rw [hv] at h2
        exact bindBool_some _ _ _ _ h2

theorem LoadFromEnv_ok (env : ProcEnv) (st : StateStore) (c : Config) (ls : LoggerState)
    (c2 : Config) (ls2 : LoggerState)
    (h : LoadFromEnv env st c ls = ((c2, ls2), none)) :
    ∃ c1, loadEnvVars env c = Except.ok c1 ∧
      c2 = { c1 with Environment := { c1.Environment with InstallID := st.installID } } := by
  cases hl : loadEnvVars env c with
  | error e => simp [LoadFromEnv, hl] at h
  | ok c1 =>
    rcases hc : ConfigureLogger c1 ls with ⟨ls3, lerr⟩
    cases lerr with
    | some e => simp [LoadFromEnv, hl, hc] at h
    | none =>
      simp only [LoadFromEnv, hl, hc, Prod.mk.injEq, and_true] at h
      exact ⟨c1, rfl, h.1.symm⟩

/-- C5: when the config-file load succeeds, `HasConfigFile` is set, the
project sequence is wholesale the file's projects (then env-rebound), and
every recognized environment variable that is set wins over anything the
file supplied (env > file precedence), on the top-level fields and on every
project. -/
theorem claim_c5 (f : ConfigFile) (env : ProcEnv) (st : StateStore) (c : Config)
    (ls : LoggerState) (c2 : Config) (ls2 : LoggerState)
    (h : LoadFromConfigFile (Except.ok f) env st c ls = ((c2, ls2), none)) :
    c2.Environment.HasConfigFile = true ∧
    c2.Projects = f.Projects.map (bindProject env) ∧
    (∀ v, env.INFRACOST_LOG_LEVEL = some v → c2.LogLevel = v) ∧
    (∀ v, env.INFRACOST_API_KEY = some v → c2.APIKey = v) ∧
    (∀ v, env.INFRACOST_PRICING_API_ENDPOINT = some v → c2.PricingAPIEndpoint = v) ∧
    (∀ v, env.INFRACOST_DASHBOARD_API_ENDPOINT = some v → c2.DashboardAPIEndpoint = v) ∧
    (∀ v, env.INFRACOST_NO_COLOR = some v → parseGoBool v = some c2.NoColor) ∧
    (∀ v p, env.INFRACOST_TERRAFORM_BINARY = some v → p ∈ c2.Projects →
      p.TerraformBinary = v) ∧
    (∀ v p, env.INFRACOST_TERRAFORM_WORKSPACE = some v → p ∈ c2.Projects →
      p.TerraformWorkspace = v) := by
  unfold LoadFromConfigFile at h
  obtain ⟨c1, hl, hc2⟩ := LoadFromEnv_ok _ _ _ _ _ _ h
  rw [loadEnvVars_eq] at hl
  cases hp : processConfig env { c with
      Environment := { c.Environment with HasConfigFile := true }
      Projects := f.Projects } with
  | error e => rw [hp] at hl; simp [Except.map] at hl
  | ok c0 =>
    rw [hp] at hl
    simp only [Except.map, Except.ok.injEq] at hl
    obtain ⟨hLog, hNC, hSkip, hKey, hPrice, hDash, hProj, hEnv⟩ :=
      processConfig_ok _ _ _ hp
    subst hc2
    rw [← hl]
    refine ⟨?_, ?_, ?_, ?_, ?_, ?_, ?_, ?_, ?_⟩
    · simp [hEnv]
    · simp [hProj]
    · intro v hv; simpa [hv, bindStr] using hLog
    · intro v hv; simpa [hv, bindStr] using hKey
    · intro v hv; simpa [hv, bindStr] using hPrice
    · intro v hv; simpa [hv, bindStr] using hDash
    · intro v hv; simpa using hNC v hv
    · intro v p hv hp2
      simp only [List.mem_map] at hp2
      obtain ⟨q, _, hq⟩ := hp2
      rw [← hq]
      simp [bindProject, hv, bindStr]
    · intro v p hv hp2
      simp only [List.mem_map] at hp2
      obtain ⟨q, _, hq⟩ := hp2
      rw [← hq]
      simp [bindProject, hv, bindStr]

/-- Witness for C5 at a concrete file and environment. -/
theorem claim_c5_witness :
    ((LoadFromConfigFile (Except.ok c5File) c5Env {} DefaultConfig {}).1.1).Environment.HasConfigFile = true ∧
    ((LoadFromConfigFile (Except.ok c5File) c5Env {} DefaultConfig {}).1.1).LogLevel = "debug" ∧
    ((LoadFromConfigFile (Except.ok c5File) c5Env {} DefaultConfig {}).1.1).Projects.all
      (fun p => p.TerraformBinary == "envbin") = true := by
  have h := claim_c5 c5File c5Env {} DefaultConfig {}
    ((LoadFromConfigFile (Except.ok c5File) c5Env {} DefaultConfig {}).1.1)
    ((LoadFromConfigFile (Except.ok c5File) c5Env {} DefaultConfig {}).1.2)
    (by rfl)
  refine ⟨h.1, h.2.2.1 "debug" rfl, ?_⟩
  have hb := h.2.2.2.2.2.2.2.1
  rw [List.all_eq_true]
  intro p hp
  have := hb "envbin" p rfl hp
  simp [this]

/-- C6: environment binding processes the top-level `Config` and then every
`Project` independently (each project is rebound from the same environment,
so one set project-scoped variable reaches every project at once), and a
binding error is returned by `loadEnvVars` (the per-project string bindings
themselves cannot fail, so the top-level conversion errors are the ones
propagated). -/
theorem claim_c6 (env : ProcEnv) (c : Config) :
    (∀ c2, loadEnvVars env c = Except.ok c2 →
      c2.Projects = c.Projects.map (bindProject env) ∧
      (∀ v, env.INFRACOST_TERRAFORM_BINARY = some v →
        ∀ p ∈ c2.Projects, p.TerraformBinary = v)) ∧
    (∀ p, processProject env p = Except.ok (bindProject env p)) ∧
    (∀ e, processConfig env c = Except.error e → loadEnvVars env c = Except.error e) := by
  refine ⟨?_, fun p => rfl, ?_⟩
  · intro c2 h2
    rw [loadEnvVars_eq] at h2
    cases hp : processConfig env c with
    | error e => rw [hp] at h2; cases h2
    | ok c1 =>
      rw [hp] at h2
      simp only [Except.map, Except.ok.injEq] at h2
      obtain ⟨-, -, -, -, -, -, hProj, -⟩ := processConfig_ok _ _ _ hp
      constructor
      · rw [← h2]
        simp [hProj]
      · intro v hv p hp2
        rw [← h2] at hp2
        simp only [List.mem_map] at hp2
        obtain ⟨q, _, hq⟩ := hp2
        rw [← hq]
        simp [bindProject, hv, bindStr]
  · intro e he
    rw [loadEnvVars_eq, he]
    rfl

/-- Witness for C6: a single set `INFRACOST_TERRAFORM_BINARY` reaches both
projects, and an invalid bool-typed variable makes `loadEnvVars` return the
conversion error. -/
theorem claim_c6_witness :
    ((loadEnvVars c6Env c6Cfg).toOption.getD DefaultConfig).Projects.all
      (fun p => p.TerraformBinary == "tbin") = true ∧
    loadEnvVars { INFRACOST_NO_COLOR := some "notabool" } DefaultConfig =
      Except.error "envconfig.Process: assigning INFRACOST_NO_COLOR: converting value to type bool" := by
  have h1 := (claim_c6 c6Env c6Cfg).1
    ((loadEnvVars c6Env c6Cfg).toOption.getD DefaultConfig) (by rfl)
  have h2 := (claim_c6 { INFRACOST_NO_COLOR := some "notabool" } DefaultConfig).2.2
    "envconfig.Process: assigning INFRACOST_NO_COLOR: converting value to type bool" (by rfl)
  refine ⟨?_, h2⟩
  rw [List.all_eq_true]
  intro p hp
  have := h1.2 "tbin" rfl p hp
  simp [this]

/-- C7: `ConfigureLogger` errors exactly when the level string is non-empty
and unrecognized; an empty level yields no error with the sink discarding
all output, and a recognized level yields no error with the sink on stderr
at the parsed level. -/
theorem claim_c7 (c : Config) (ls : LoggerState) :
    ((ConfigureLogger c ls).2 ≠ none ↔
      (c.LogLevel ≠ "" ∧ parseLevel c.LogLevel = none)) ∧
    (c.LogLevel = "" → (ConfigureLogger c ls).2 = none ∧
      (ConfigureLogger c ls).1.output = LogOutput.discard) ∧
    (∀ lv, parseLevel c.LogLevel = some lv →
      (ConfigureLogger c ls).2 = none ∧
      (ConfigureLogger c ls).1.output = LogOutput.stderr ∧
      (ConfigureLogger c ls).1.level = lv) := by
  by_cases hL : c.LogLevel = ""
  · have hP : parseLevel c.LogLevel = none := by rw [hL]; rfl
    refine ⟨?_, ?_, ?_⟩
    · simp [ConfigureLogger, hL]
    · intro _; simp [ConfigureLogger, hL]
    · intro lv hlv; rw [hP] at hlv; cases hlv
  · cases hp : parseLevel c.LogLevel with
    | none =>
      refine ⟨?_, ?_, ?_⟩
      · simp [ConfigureLogger, hL, hp]
      · intro hL2; exact absurd hL2 hL
      · intro lv hlv; cases hlv
    | some lv0 =>
      refine ⟨?_, ?_, ?_⟩
      · simp [ConfigureLogger, hL, hp]
      · intro hL2; exact absurd hL2 hL
      · intro lv hlv
        injection hlv with hlv2
        subst hlv2
        simp [ConfigureLogger, hL, hp]

/-- Witness for C7 at the empty, a recognized (case-insensitively) and an
unrecognized level. -/
theorem claim_c7_witness :
    (ConfigureLogger { DefaultConfig with LogLevel := "" } {}).2 = none ∧
    (ConfigureLogger { DefaultConfig with LogLevel := "" } {}).1.output = LogOutput.discard ∧
    (ConfigureLogger { DefaultConfig with LogLevel := "WARN" } {}).2 = none ∧
    (ConfigureLogger { DefaultConfig with LogLevel := "WARN" } {}).1.output = LogOutput.stderr ∧
    (ConfigureLogger { DefaultConfig with LogLevel := "WARN" } {}).1.level = LogLevelV.warnL ∧
    (ConfigureLogger { DefaultConfig with LogLevel := "bogus" } {}).2 ≠ none := by
  have h1 := (claim_c7 { DefaultConfig with LogLevel := "" } {}).2.1 rfl
  have h2 := (claim_c7 { DefaultConfig with LogLevel := "WARN" } {}).2.2 LogLevelV.warnL (by rfl)
  have h3 := ((claim_c7 { DefaultConfig with LogLevel := "bogus" } {}).1).mpr
    (by refine ⟨?_, rfl⟩; decide)
  exact ⟨h1.1, h1.2, h2.1, h2.2.1, h2.2.2, h3⟩

/-- C10: when `ConfigureLogger` fails on a non-empty unparsable level, it
has already replaced the formatter and redirected output to stderr; only
the level is left unchanged — the mutation is not rolled back on error. -/
theorem claim_c10 (c : Config) (ls : LoggerState) (e : String)
    (h : (ConfigureLogger c ls).2 = some e) :
    c.LogLevel ≠ "" ∧
    (ConfigureLogger c ls).1.formatter = LogFormatter.textFullTimestamp ∧
    (ConfigureLogger c ls).1.output = LogOutput.stderr ∧
    (ConfigureLogger c ls).1.level = ls.level := by
  by_cases hL : c.LogLevel = ""
  · simp [ConfigureLogger, hL] at h
  · cases hp : parseLevel c.LogLevel with
    | none => exact ⟨hL, by simp [ConfigureLogger, hL, hp]⟩
    | some lv => simp [ConfigureLogger, hL, hp] at h

/-- Witness for C10 at a concrete unparsable level over a concrete prior
logger state. -/
theorem claim_c10_witness :
    ({ DefaultConfig with LogLevel := "bogus" } : Config).LogLevel ≠ "" ∧
    (ConfigureLogger { DefaultConfig with LogLevel := "bogus" }
      { formatter := LogFormatter.default, output := LogOutput.discard,
        level := LogLevelV.debugL }).1.formatter = LogFormatter.textFullTimestamp ∧
    (ConfigureLogger { DefaultConfig with LogLevel := "bogus" }
      { formatter := LogFormatter.default, output := LogOutput.discard,
        level := LogLevelV.debugL }).1.output = LogOutput.stderr ∧
    (ConfigureLogger { DefaultConfig with LogLevel := "bogus" }
      { formatter := LogFormatter.default, output := LogOutput.discard,
        level := LogLevelV.debugL }).1.level = LogLevelV.debugL := by
  have h := claim_c10 { DefaultConfig with LogLevel := "bogus" }
    { formatter := LogFormatter.default, output := LogOutput.discard,
      level := LogLevelV.debugL } "not a valid logrus Level: bogus" (by rfl)
  exact ⟨h.1, h.2.1, h.2.2.1, h.2.2.2⟩

/-- C8: the per-invocation flag merge overwrites `NoColor`, `LogLevel` and
`PricingAPIEndpoint` exactly when the user explicitly set the matching flag;
a flag that was not set leaves the previously resolved field value
unchanged. -/
theorem claim_c8 (fl : FlagSet) (c : Config) (ls : LoggerState) (col : ColorState) :
    (fl.noColor = none → ((loadGlobalFlags fl c ls col).1.1).NoColor = c.NoColor) ∧
    (fl.logLevel = none → ((loadGlobalFlags fl c ls col).1.1).LogLevel = c.LogLevel) ∧
    (fl.pricingAPIEndpoint = none →
      ((loadGlobalFlags fl c ls col).1.1).PricingAPIEndpoint = c.PricingAPIEndpoint) ∧
    (∀ b, fl.noColor = some b → ((loadGlobalFlags fl c ls col).1.1).NoColor = b) ∧
    (∀ v, fl.logLevel = some v → ((loadGlobalFlags fl c ls col).1.1).LogLevel = v) ∧
    (∀ v, fl.pricingAPIEndpoint = some v → (loadGlobalFlags fl c ls col).2 = none →
      ((loadGlobalFlags fl c ls col).1.1).PricingAPIEndpoint = v) := by
  obtain ⟨nc, lv, pe⟩ := fl
  refine ⟨?_, ?_, ?_, ?_, ?_, ?_⟩
  · intro h
    cases h
    cases lv with
    | none => cases pe <;> simp [loadGlobalFlags, finishGlobalFlags]
    | some v =>
      simp only [loadGlobalFlags]
      split <;> cases pe <;> simp [finishGlobalFlags]
  · intro h
    cases h
    cases nc <;> cases pe <;> simp [loadGlobalFlags, finishGlobalFlags]
  · intro h
    cases h
    cases lv with
    | none => cases nc <;> simp [loadGlobalFlags, finishGlobalFlags]
    | some v =>
      cases nc <;> simp only [loadGlobalFlags] <;> split <;> simp [finishGlobalFlags]
  · intro b h
    cases h
    cases lv with
    | none => cases pe <;> simp [loadGlobalFlags, finishGlobalFlags]
    | some v =>
      simp only [loadGlobalFlags]
      split <;> cases pe <;> simp [finishGlobalFlags]
  · intro v h
    cases h
    cases nc <;> simp only [loadGlobalFlags] <;> split <;> cases pe <;>
      simp [finishGlobalFlags]
  · intro v h
    cases h
    intro hok
    cases lv with
    | none => cases nc <;> simp [loadGlobalFlags, finishGlobalFlags]
    | some w =>
      cases nc <;> simp only [loadGlobalFlags] at hok ⊢ <;> split at hok <;>
        simp_all [finishGlobalFlags]

/-- Witness for C8: unset flags leave the defaults untouched; explicitly set
flags overwrite the matching fields. -/
theorem claim_c8_witness :
    ((loadGlobalFlags {} DefaultConfig {} {}).1.1).NoColor = DefaultConfig.NoColor ∧
    ((loadGlobalFlags {} DefaultConfig {} {}).1.1).LogLevel = DefaultConfig.LogLevel ∧
    ((loadGlobalFlags {} DefaultConfig {} {}).1.1).PricingAPIEndpoint =
      DefaultConfig.PricingAPIEndpoint ∧
    ((loadGlobalFlags c8FlagsAll DefaultConfig {} {}).1.1).NoColor = true ∧
    ((loadGlobalFlags c8FlagsAll DefaultConfig {} {}).1.1).LogLevel = "info" ∧
    ((loadGlobalFlags c8FlagsAll DefaultConfig {} {}).1.1).PricingAPIEndpoint =
      "https://pricing.example" := by
  have h1 := claim_c8 {} DefaultConfig {} {}
  have h2 := claim_c8 c8FlagsAll DefaultConfig {} {}
  exact ⟨h1.1 rfl, h1.2.1 rfl, h1.2.2.1 rfl,
    h2.2.2.2.1 true rfl, h2.2.2.2.2.1 "info" rfl,
    h2.2.2.2.2.2 "https://pricing.example" rfl (by rfl)⟩

theorem errReported_mem_handleAppErrEvs (e : AppError) :
    Ev.errReported (reportMessage e) ∈ handleAppErrEvs e := by
  unfold handleAppErrEvs
  by_cases h : e.message = "" <;> simp [h]

/-- C9: when the command returns an error, the telemetry report carries the
display-stripped message, replaced by the display-stripped label whenever
the error chain holds a labeled event error; in particular a labeled event
error with label `missing-api-key` (bare or wrapped) is reported as exactly
`missing-api-key`. -/
theorem claim_c9 (env : ProcEnv) (st : StateStore) (res : CheckResult) (e : AppError) :
    Ev.errReported (reportMessage e) ∈ (mainRun env st (ExecOutcome.err e) res).2 ∧
    (∀ l, e.findEventsLabel = some l → reportMessage e = stripColor l) ∧
    (e.findEventsLabel = none → reportMessage e = stripColor e.message) ∧
    reportMessage (AppError.eventsErr "missing-api-key"
      "No INFRACOST_API_KEY environment variable is set.") = "missing-api-key" ∧
    reportMessage (AppError.wrap "query"
      (AppError.eventsErr "missing-api-key" "No API key")) = "missing-api-key" := by
  refine ⟨?_, ?_, ?_, by decide, by decide⟩
  · simp [mainRun, mainCore, mainDeferredEvs, List.mem_cons, List.mem_append,
      errReported_mem_handleAppErrEvs]
  · intro l hl
    simp [reportMessage, hl]
  · intro hl
    simp [reportMessage, hl]

/-- Witness for C9 at a concrete labeled and a concrete plain error. -/
theorem claim_c9_witness :
    reportMessage (AppError.eventsErr "missing-api-key" "No API key") =
      stripColor "missing-api-key" ∧
    reportMessage (AppError.basic "plain failure") = stripColor "plain failure" := by
  have h1 := claim_c9 {} {} (Except.ok none)
    (AppError.eventsErr "missing-api-key" "No API key")
  have h2 := claim_c9 {} {} (Except.ok none) (AppError.basic "plain failure")
  exact ⟨h1.2.1 "missing-api-key" rfl, h2.2.2.1 rfl⟩

end Infracost
